import Mathlib

/-!
Verification of the analytical Wagner-pressure core of the plate-impact
repository.  The embedded program is the MATLAB function

  function [rs, ps, pmax] = wagner_pressure(sigmas, t, s, sdot, sddot, eps)

which derives the turnover-point kinematics `d, ddot, dddot`, the jet
thickness `J`, the outer/inner/overlap asymptotic solutions, the composite
pressure profile (restricted to positive radii) and the peak pressure at the
root of `zero_fun`.  Real-valued MATLAB arithmetic is embedded over `ℝ`; the
square roots that MATLAB silently promotes to complex values are embedded
through a real-argument principal square root `msqrt : ℝ → ℂ`, and the final
`real(...)` projections of the source are embedded as `Complex.re`.
-/

namespace Wagner

/-- Principal square root of a real argument as computed by MATLAB `sqrt` on a
real double: the real square root for a nonnegative argument, and `i*sqrt(-x)`
for a negative argument. -/
noncomputable def msqrt (x : ℝ) : ℂ :=
  if 0 ≤ x then (Real.sqrt x : ℂ) else (Real.sqrt (-x) : ℂ) * Complex.I

/-- Turnover-point position, line `d = sqrt(3 * (t - s))` of wagner_pressure.m. -/
noncomputable def dd (t s : ℝ) : ℝ := Real.sqrt (3 * (t - s))

/-- Turnover-point velocity, line `ddot = (sqrt(3)/2) * (1 - sdot) ./ sqrt(t - s)`. -/
noncomputable def ddot (t s sdot : ℝ) : ℝ :=
  Real.sqrt 3 / 2 * (1 - sdot) / Real.sqrt (t - s)

/-- Turnover-point acceleration, line
`dddot = -(sqrt(3)/4) * ((1 - sdot).^2 + 2 * (t - s) .* sddot) ./ (t - s).^(3/2)`. -/
noncomputable def dddot (t s sdot sddot : ℝ) : ℝ :=
  -(Real.sqrt 3 / 4) * ((1 - sdot) ^ 2 + 2 * (t - s) * sddot) / (t - s) ^ ((3 : ℝ) / 2)

/-- Jet-thickness scale, line `J = 2 * (t - s).^(3/2) / (sqrt(3) * pi)`. -/
noncomputable def Jfun (t s : ℝ) : ℝ :=
  2 * (t - s) ^ ((3 : ℝ) / 2) / (Real.sqrt 3 * Real.pi)

/-- Outer solution, lines
`outer_p = @(rhat, t) (1/eps) * (4 * (2 * d^2 - rhat.^2) * ddot^2 ./ (3 * pi * sqrt(d^2 - rhat.^2)) + 4 * d * dddot * sqrt(d^2 - rhat.^2) / (3 * pi))`.
The radicand `d^2 - rhat^2` may be negative, in which case MATLAB evaluates a
purely imaginary square root; hence the codomain is `ℂ`. -/
noncomputable def outer_p (eps t s sdot sddot rhat : ℝ) : ℂ :=
  ((1 / eps : ℝ) : ℂ) *
    (((4 * (2 * dd t s ^ 2 - rhat ^ 2) * ddot t s sdot ^ 2 : ℝ) : ℂ)
        / (((3 * Real.pi : ℝ) : ℂ) * msqrt (dd t s ^ 2 - rhat ^ 2))
      + ((4 * dd t s * dddot t s sdot sddot : ℝ) : ℂ) * msqrt (dd t s ^ 2 - rhat ^ 2)
        / ((3 * Real.pi : ℝ) : ℂ))

/-- Root function of the peak-pressure solve, line
`zero_fun = @(sigma) sigma + 4 * sqrt(sigma) + log(sigma) + 1`. -/
noncomputable def zero_fun (σ : ℝ) : ℝ := σ + 4 * Real.sqrt σ + Real.log σ + 1

/-- Inner radial offset, line
`tilde_r = @(sigma, t) - (J/pi) * (sigma + 4 * sqrt(sigma) + log(sigma) + 1)`.
Embedded over `ℝ` for the nonnegative sigma samples of a RadialSampleSet. -/
noncomputable def tilde_r (t s σ : ℝ) : ℝ :=
  -(Jfun t s / Real.pi) * (σ + 4 * Real.sqrt σ + Real.log σ + 1)

/-- Inner absolute radius, line `inner_r = @(sigma, t) eps * d + eps^3 * tilde_r(sigma, t)`. -/
noncomputable def inner_r (eps t s σ : ℝ) : ℝ := eps * dd t s + eps ^ 3 * tilde_r t s σ

/-- Inner pressure, line
`inner_p = @(sigma, t) (1 / eps^2) * 2 * ddot^2 .* sqrt(sigma) ./ (1 + sqrt(sigma)).^2`. -/
noncomputable def inner_p (eps t s sdot σ : ℝ) : ℝ :=
  1 / eps ^ 2 * 2 * ddot t s sdot ^ 2 * Real.sqrt σ / (1 + Real.sqrt σ) ^ 2

/-- Overlap solution, lines
`overlap = @(r, t) 2 * sqrt(2) * d^(3/2) * ddot^2 ./ (3 * pi * eps^2 * sqrt(d / eps^2 - r / eps^3))`.
Again the radicand may be negative, so the codomain is `ℂ`. -/
noncomputable def overlap (eps t s sdot r : ℝ) : ℂ :=
  ((2 * Real.sqrt 2 * dd t s ^ ((3 : ℝ) / 2) * ddot t s sdot ^ 2 : ℝ) : ℂ)
    / (((3 * Real.pi * eps ^ 2 : ℝ) : ℂ) * msqrt (dd t s / eps ^ 2 - r / eps ^ 3))

/-- Selection step of the composite solution, lines
`all_rs = inner_r(sigmas, t); pos_idxs = find(all_rs > 0); rs = all_rs(pos_idxs); sigmas = sigmas(pos_idxs)`:
each sample is paired with its radius and exactly the pairs with positive
radius are kept, in their original order (MATLAB `find` enumerates indices in
increasing order). -/
noncomputable def retainedPairs (σs : List ℝ) (t s eps : ℝ) : List (ℝ × ℝ) :=
  (σs.map fun σ => (σ, inner_r eps t s σ)).filter fun p => decide (0 < p.2)

/-- The retained sigma samples, the `sigmas = sigmas(pos_idxs)` reassignment. -/
noncomputable def sigmas_sel (σs : List ℝ) (t s eps : ℝ) : List ℝ :=
  (retainedPairs σs t s eps).map Prod.fst

/-- The returned radii, `rs = all_rs(pos_idxs)`. -/
noncomputable def rs_model (σs : List ℝ) (t s eps : ℝ) : List ℝ :=
  (retainedPairs σs t s eps).map Prod.snd

/-- Complex composite pressure of one retained sample, the summand of line
`ps = real(inner_p(sigmas, t) + outer_p(rs/eps, t) - overlap(rs, t))`
before the real projection, with `r = inner_r(sigma)`. -/
noncomputable def compositeC (eps t s sdot sddot σ : ℝ) : ℂ :=
  ((inner_p eps t s sdot σ : ℝ) : ℂ)
    + outer_p eps t s sdot sddot (inner_r eps t s σ / eps)
    - overlap eps t s sdot (inner_r eps t s σ)

/-- Real composite pressure of one retained sample (after `real(...)`). -/
noncomputable def compositeP (eps t s sdot sddot σ : ℝ) : ℝ :=
  (compositeC eps t s sdot sddot σ).re

/-- The returned pressures, line
`ps = real(inner_p(sigmas, t) + outer_p(rs/eps, t) - overlap(rs, t))`,
evaluated elementwise over the retained samples. -/
noncomputable def ps_model (σs : List ℝ) (t s sdot sddot eps : ℝ) : List ℝ :=
  (sigmas_sel σs t s eps).map (compositeP eps t s sdot sddot)

/-- Crude numeric bound on the exponential, used to bound logarithms of small
rationals. -/
lemma exp_three_lt : Real.exp 3 < 21 := by
  have h1 : Real.exp 1 < 2.7182818286 := Real.exp_one_lt_d9
  have h3 : Real.exp 3 = Real.exp 1 ^ 3 := by
    rw [← Real.exp_nat_mul]
    norm_num
  rw [h3]
  calc Real.exp 1 ^ 3 < 2.7182818286 ^ 3 := by
        have h0 : (0 : ℝ) ≤ Real.exp 1 := (Real.exp_pos 1).le
        gcongr
      _ < 21 := by norm_num

/-- Lower bound on `exp (-3)`, used to bound `log` at small positive inputs. -/
lemma inv_21_lt_exp_neg_three : (1 : ℝ) / 21 < Real.exp (-3) := by
  rw [Real.exp_neg]
  have h2 : Real.exp 3 < 21 := exp_three_lt
  have h3 : (21 : ℝ)⁻¹ < (Real.exp 3)⁻¹ := by
    exact inv_strictAnti₀ (Real.exp_pos 3) h2
  calc (1 : ℝ) / 21 = (21 : ℝ)⁻¹ := by norm_num
    _ < (Real.exp 3)⁻¹ := h3

/-- The root function is strictly negative throughout `(0, 0.0234]`; in
particular near the seed `0.0233`. -/
lemma zero_fun_neg_small (x : ℝ) (h0 : 0 < x) (h1 : x ≤ 0.0234) : zero_fun x < 0 := by
  unfold zero_fun
  have hs : Real.sqrt x < 0.153 := by
    rw [Real.sqrt_lt' (by norm_num : (0 : ℝ) < 0.153)]
    nlinarith
  have hl : Real.log x < -3 := by
    rw [Real.log_lt_iff_lt_exp h0]
    calc x ≤ 0.0234 := h1
      _ < 1 / 21 := by norm_num
      _ < Real.exp (-3) := inv_21_lt_exp_neg_three
  linarith

/-- Existence of a root of `zero_fun` between the seed region and 1; this backs
the model of the `fsolve` call. -/
lemma zero_fun_root_exists : ∃ σ : ℝ, σ ∈ Set.Icc (0.0233 : ℝ) 1 ∧ zero_fun σ = 0 := by
  have hlog : ContinuousOn Real.log (Set.Icc (0.0233 : ℝ) 1) := by
    apply Real.continuousOn_log.mono
    intro x hx
    have h1 : (0.0233 : ℝ) ≤ x := hx.1
    simp only [Set.mem_compl_iff, Set.mem_singleton_iff]
    intro h
    rw [h] at h1
    norm_num at h1
  have hcont : ContinuousOn zero_fun (Set.Icc (0.0233 : ℝ) 1) := by
    have h1 : ContinuousOn (fun σ : ℝ => σ + 4 * Real.sqrt σ) (Set.Icc (0.0233 : ℝ) 1) :=
      continuousOn_id.add (continuousOn_const.mul Real.continuous_sqrt.continuousOn)
    exact (h1.add hlog).add continuousOn_const
  have hneg : zero_fun 0.0233 < 0 := zero_fun_neg_small 0.0233 (by norm_num) (by norm_num)
  have hpos : (0 : ℝ) < zero_fun 1 := by
    unfold zero_fun
    rw [Real.sqrt_one, Real.log_one]
    norm_num
  have hsub := intermediate_value_Icc (by norm_num : (0.0233 : ℝ) ≤ 1) hcont
  have hmem : (0 : ℝ) ∈ Set.Icc (zero_fun 0.0233) (zero_fun 1) := ⟨hneg.le, hpos.le⟩
  obtain ⟨σ, hσmem, hσeq⟩ := hsub hmem
  exact ⟨σ, hσmem, hσeq⟩

/-- Modelled from the spec: the MATLAB builtin `fsolve` invoked at line
`sigma_max = fsolve(zero_fun, 0.0233)` is library code absent from the source;
per the spec ("the root-finder must converge ... for the known analytic form",
section 4.2) its result is modelled as an exact root of `zero_fun` in the
bracket established by `zero_fun_root_exists`. -/
noncomputable def sigma_max : ℝ := Classical.choose zero_fun_root_exists

/-- Defining property of the located root. -/
lemma sigma_max_spec : sigma_max ∈ Set.Icc (0.0233 : ℝ) 1 ∧ zero_fun sigma_max = 0 :=
  Classical.choose_spec zero_fun_root_exists

/-- The located sigma as the pressure evaluator computes it, as a function of
the evaluator's arguments: `zero_fun` and the seed `0.0233` at lines 37-38 of
wagner_pressure.m reference none of `t, s, sdot, sddot, eps`. -/
noncomputable def sigma_max_located (t s sdot sddot eps : ℝ) : ℝ := sigma_max

/-- Complex peak pressure before the real projection, lines
`pmax = real(inner_p(sigma_max, t) + outer_p(inner_r(sigma_max, t)/eps, t) - overlap(inner_r(sigma_max, t)/eps, t))`.
Note that the source passes `inner_r(sigma_max, t)/eps` (not `inner_r(sigma_max, t)`)
to `overlap` here, unlike the profile line which passes `rs`. -/
noncomputable def pmaxC (t s sdot sddot eps : ℝ) : ℂ :=
  ((inner_p eps t s sdot sigma_max : ℝ) : ℂ)
    + outer_p eps t s sdot sddot (inner_r eps t s sigma_max / eps)
    - overlap eps t s sdot (inner_r eps t s sigma_max / eps)

/-- Returned peak pressure (after `real(...)`). -/
noncomputable def pmax_model (t s sdot sddot eps : ℝ) : ℝ := (pmaxC t s sdot sddot eps).re

/-- Error kinds named by the spec's error-handling design (section 7). -/
inductive WagnerError
  | domainError
  | convergenceError

/-- The full evaluator `[rs, ps, pmax] = wagner_pressure(sigmas, t, s, sdot, sddot, eps)`.
The codomain is `Except` so that the failure modes the spec postulates are
statable; the MATLAB source contains no error-raising construct, so the
embedding always returns `Except.ok` of the three outputs. -/
noncomputable def wagner_pressure (σs : List ℝ) (t s sdot sddot eps : ℝ) :
    Except WagnerError (List ℝ × List ℝ × ℝ) :=
  Except.ok (rs_model σs t s eps, ps_model σs t s sdot sddot eps, pmax_model t s sdot sddot eps)

/-- One Newton update, the iteration step of a Newton root-finder. -/
noncomputable def newtonStep (f fderiv : ℝ → ℝ) (x : ℝ) : ℝ := x - f x / fderiv x

/-- Modelled from the spec: the repository's "numerical root-finder utility"
(sections 2 and 4.2) is not among the source files; per the spec it is a
bounded-iteration Newton-type solver that signals a ConvergenceError when the
iteration bound is exhausted instead of returning an unconverged iterate. -/
noncomputable def rootSolve (f fderiv : ℝ → ℝ) (tol : ℝ) : ℕ → ℝ → Except WagnerError ℝ
  | 0, _ => Except.error WagnerError.convergenceError
  | n + 1, x =>
      if |f x| ≤ tol then Except.ok x
      else rootSolve f fderiv tol n (newtonStep f fderiv x)

/-- The inner radial offset is the root function scaled by the jet thickness. -/
lemma tilde_r_eq_zero_fun (t s σ : ℝ) : tilde_r t s σ = -(Jfun t s / Real.pi) * zero_fun σ := rfl

/-- MATLAB square root of a nonnegative real argument is the real square root. -/
lemma msqrt_of_nonneg {x : ℝ} (h : 0 ≤ x) : msqrt x = (Real.sqrt x : ℂ) := by
  rw [msqrt, if_pos h]

/-- MATLAB square root of a negative real argument is purely imaginary. -/
lemma msqrt_of_neg {x : ℝ} (h : x < 0) : msqrt x = (Real.sqrt (-x) : ℂ) * Complex.I := by
  rw [msqrt, if_neg (not_le.mpr h)]

/-- The find-and-index selection of the source coincides with an order-preserving
filter of the (sigma, radius) pairs. -/
lemma retainedPairs_eq (σs : List ℝ) (t s eps : ℝ) :
    retainedPairs σs t s eps
      = (σs.filter fun σ => decide (0 < inner_r eps t s σ)).map
          fun σ => (σ, inner_r eps t s σ) := by
  induction σs with
  | nil => rfl
  | cons a l ih =>
      unfold retainedPairs at ih ⊢
      simp only [List.map_cons, List.filter_cons] at ih ⊢
      by_cases h : 0 < inner_r eps t s a
      · simp [h, ih]
      · simp [h, ih]

/-- The retained sigma samples are the positive-radius filter of the input. -/
lemma sigmas_sel_eq (σs : List ℝ) (t s eps : ℝ) :
    sigmas_sel σs t s eps = σs.filter fun σ => decide (0 < inner_r eps t s σ) := by
  rw [sigmas_sel, retainedPairs_eq, List.map_map]
  simp [Function.comp_def]

/-- The returned radii are the radii of the retained sigma samples. -/
lemma rs_model_eq (σs : List ℝ) (t s eps : ℝ) :
    rs_model σs t s eps
      = (σs.filter fun σ => decide (0 < inner_r eps t s σ)).map (inner_r eps t s) := by
  rw [rs_model, retainedPairs_eq, List.map_map]
  simp [Function.comp_def]

/-- When the outer radicand is negative the outer solution is purely imaginary,
so the real projection of the source's `real(...)` discards it entirely. -/
lemma outer_p_re_of_neg {eps t s sdot sddot rhat : ℝ}
    (h : dd t s ^ 2 - rhat ^ 2 < 0) : (outer_p eps t s sdot sddot rhat).re = 0 := by
  unfold outer_p
  rw [msqrt_of_neg h]
  simp [Complex.div_re, Complex.mul_re, Complex.mul_im, Complex.add_re, Complex.add_im,
    Complex.ofReal_re, Complex.ofReal_im, Complex.I_re, Complex.I_im, ← Complex.ofReal_pow]

/-- When the overlap radicand is negative the overlap solution is purely
imaginary, so the real projection discards it entirely. -/
lemma overlap_re_of_neg {eps t s sdot r : ℝ}
    (h : dd t s / eps ^ 2 - r / eps ^ 3 < 0) : (overlap eps t s sdot r).re = 0 := by
  unfold overlap
  rw [msqrt_of_neg h]
  simp [Complex.div_re, Complex.mul_re, Complex.mul_im, Complex.add_re, Complex.add_im,
    Complex.ofReal_re, Complex.ofReal_im, Complex.I_re, Complex.I_im, ← Complex.ofReal_pow]

/-- The located root is not near the seed: `zero_fun` is still negative at
`0.023301 = 0.0233 + 1e-6`, so the root exceeds it. -/
lemma sigma_max_gt : 0.023301 < sigma_max := by
  by_contra hcon
  push_neg at hcon
  have h0 : (0 : ℝ) < sigma_max := lt_of_lt_of_le (by norm_num) sigma_max_spec.1.1
  have hneg : zero_fun sigma_max < 0 :=
    zero_fun_neg_small sigma_max h0 (hcon.trans (by norm_num))
  have heq := sigma_max_spec.2
  linarith

/-- C2: for every `(t, s, sdot, sddot)` with `t - s > 0` the turnover-point
kinematics returns `d = sqrt(3(t-s))` (with `d^2 = 3(t-s)`),
`ddot = (sqrt(3)/2)(1 - sdot)/sqrt(t-s)` and
`dddot = -(sqrt(3)/4)[(1-sdot)^2 + 2(t-s)sddot]/(t-s)^(3/2)`, as a pure
function of its inputs. -/
theorem turnover_kinematics_spec (t s sdot sddot : ℝ) (h : 0 < t - s) :
    dd t s = Real.sqrt (3 * (t - s))
    ∧ dd t s ^ 2 = 3 * (t - s)
    ∧ ddot t s sdot = Real.sqrt 3 / 2 * (1 - sdot) / Real.sqrt (t - s)
    ∧ dddot t s sdot sddot
        = -(Real.sqrt 3 / 4) * ((1 - sdot) ^ 2 + 2 * (t - s) * sddot) / (t - s) ^ ((3 : ℝ) / 2) := by
  refine ⟨rfl, ?_, rfl, rfl⟩
  unfold dd
  exact Real.sq_sqrt (by linarith)

/-- Witness for C2 at the end-to-end scenario point `t = 1, s = sdot = sddot = 0`. -/
theorem turnover_kinematics_spec_witness :
    (0 : ℝ) < 1 - 0
    ∧ (dd 1 0 = Real.sqrt (3 * (1 - 0))
       ∧ dd 1 0 ^ 2 = 3 * (1 - 0)
       ∧ ddot 1 0 0 = Real.sqrt 3 / 2 * (1 - 0) / Real.sqrt (1 - 0)
       ∧ dddot 1 0 0 0
           = -(Real.sqrt 3 / 4) * ((1 - 0) ^ 2 + 2 * (1 - 0) * 0) / (1 - 0) ^ ((3 : ℝ) / 2)) :=
  ⟨by norm_num, turnover_kinematics_spec 1 0 0 0 (by norm_num)⟩

/-- C3: for every turnover state with `t - s > 0`, `eps > 0` and `sigma >= 0`,
the inner solution satisfies `J = 2(t-s)^(3/2)/(sqrt(3) pi)`,
`tilde_r(sigma) = -(J/pi)(sigma + 4 sqrt(sigma) + ln(sigma) + 1)`,
`inner_r(sigma) = eps*d + eps^3*tilde_r(sigma)` and
`inner_p(sigma) = (1/eps^2) 2 ddot^2 sqrt(sigma)/(1 + sqrt(sigma))^2`. -/
theorem inner_solution_spec (t s sdot σ eps : ℝ)
    (ht : 0 < t - s) (heps : 0 < eps) (hσ : 0 ≤ σ) :
    Jfun t s = 2 * (t - s) ^ ((3 : ℝ) / 2) / (Real.sqrt 3 * Real.pi)
    ∧ tilde_r t s σ = -(Jfun t s / Real.pi) * (σ + 4 * Real.sqrt σ + Real.log σ + 1)
    ∧ inner_r eps t s σ = eps * dd t s + eps ^ 3 * tilde_r t s σ
    ∧ inner_p eps t s sdot σ
        = 1 / eps ^ 2 * 2 * ddot t s sdot ^ 2 * Real.sqrt σ / (1 + Real.sqrt σ) ^ 2 :=
  ⟨rfl, rfl, rfl, rfl⟩

/-- Witness for C3 at `t = 1, s = sdot = 0, sigma = 1, eps = 1`. -/
theorem inner_solution_spec_witness :
    ((0 : ℝ) < 1 - 0 ∧ (0 : ℝ) < 1 ∧ (0 : ℝ) ≤ 1)
    ∧ (Jfun 1 0 = 2 * (1 - 0) ^ ((3 : ℝ) / 2) / (Real.sqrt 3 * Real.pi)
       ∧ tilde_r 1 0 1 = -(Jfun 1 0 / Real.pi) * (1 + 4 * Real.sqrt 1 + Real.log 1 + 1)
       ∧ inner_r 1 1 0 1 = 1 * dd 1 0 + 1 ^ 3 * tilde_r 1 0 1
       ∧ inner_p 1 1 0 0 1
           = 1 / 1 ^ 2 * 2 * ddot 1 0 0 ^ 2 * Real.sqrt 1 / (1 + Real.sqrt 1) ^ 2) :=
  ⟨⟨by norm_num, by norm_num, by norm_num⟩,
   inner_solution_spec 1 0 0 1 1 (by norm_num) (by norm_num) (by norm_num)⟩

/-- C6: the bounded root-finder either signals a ConvergenceError or returns a
value satisfying the convergence test; in particular it never silently returns
the seed (or any other iterate) without the test having passed. -/
theorem rootSolve_converged_or_error (f fderiv : ℝ → ℝ) (tol x0 : ℝ) (fuel : ℕ) :
    rootSolve f fderiv tol fuel x0 = Except.error WagnerError.convergenceError
    ∨ ∃ v, rootSolve f fderiv tol fuel x0 = Except.ok v ∧ |f v| ≤ tol := by
  induction fuel generalizing x0 with
  | zero => exact Or.inl rfl
  | succ n ih =>
      by_cases h : |f x0| ≤ tol
      · refine Or.inr ⟨x0, ?_, h⟩
        rw [rootSolve, if_pos h]
      · rw [rootSolve, if_neg h]
        exact ih (newtonStep f fderiv x0)

/-- C9: the two output sequences have equal length, the i-th pressure is
computed from the same retained sigma sample as the i-th radius, and the
positive-radius filtering preserves the relative order of the caller-supplied
sigma samples (the retained samples form a sublist of the input). -/
theorem profile_alignment_invariant (σs : List ℝ) (t s sdot sddot eps : ℝ) :
    (rs_model σs t s eps).length = (ps_model σs t s sdot sddot eps).length
    ∧ List.Sublist (sigmas_sel σs t s eps) σs
    ∧ rs_model σs t s eps = (sigmas_sel σs t s eps).map (inner_r eps t s)
    ∧ ps_model σs t s sdot sddot eps
        = (sigmas_sel σs t s eps).map (compositeP eps t s sdot sddot) := by
  have hrs : rs_model σs t s eps = (sigmas_sel σs t s eps).map (inner_r eps t s) := by
    rw [rs_model_eq, sigmas_sel_eq]
  refine ⟨?_, ?_, hrs, rfl⟩
  · rw [hrs, ps_model]
    simp
  · rw [sigmas_sel_eq]
    exact List.filter_sublist σs

/-- C7 counterexample: the sigma located by the peak-pressure root-solve is not
within `1e-6` of `0.0233` (the root function is still about `-2.1` there;
`0.0233` is only the seed of the solve). -/
theorem sigma_max_not_near_seed : 1e-6 < |sigma_max - 0.0233| := by
  have h := sigma_max_gt
  rw [abs_of_pos (by linarith)]
  linarith

/-- C7 amended: the sigma located by the peak-pressure root-solve is the same
for any two turnover states - it does not depend on `d`, `ddot`, `dddot`, on
`eps`, or on the time sample, only on the fixed functional form - but it is
not within `1e-6` of `0.0233`: it exceeds `0.0233 + 1e-6`. -/
theorem sigma_max_state_independent (t1 s1 sd1 sdd1 e1 t2 s2 sd2 sdd2 e2 : ℝ) :
    sigma_max_located t1 s1 sd1 sdd1 e1 = sigma_max_located t2 s2 sd2 sdd2 e2
    ∧ zero_fun (sigma_max_located t1 s1 sd1 sdd1 e1) = 0
    ∧ 0.0233 + 1e-6 < sigma_max_located t1 s1 sd1 sdd1 e1 := by
  refine ⟨rfl, sigma_max_spec.2, ?_⟩
  have h := sigma_max_gt
  unfold sigma_max_located
  linarith

/-- C1: for every sample set and turnover state with `t - s > 0`, the composite
evaluator computes `r = inner_r(sigma)` for each sample, discards exactly the
samples with `r <= 0`, returns for every retained sample the pressure
`p = Re[inner_p(sigma) + outer_p(r/eps) - overlap(r)]`, and the returned radii
are all strictly positive. -/
theorem wagner_pressure_profile_spec (σs : List ℝ) (t s sdot sddot eps : ℝ)
    (h : 0 < t - s) (hσ : ∀ σ ∈ σs, 0 < σ) :
    rs_model σs t s eps
      = (σs.filter fun σ => decide (0 < inner_r eps t s σ)).map (inner_r eps t s)
    ∧ ps_model σs t s sdot sddot eps
        = (σs.filter fun σ => decide (0 < inner_r eps t s σ)).map
            (fun σ => (((inner_p eps t s sdot σ : ℝ) : ℂ)
                + outer_p eps t s sdot sddot (inner_r eps t s σ / eps)
                - overlap eps t s sdot (inner_r eps t s σ)).re)
    ∧ ∀ r ∈ rs_model σs t s eps, 0 < r := by
  refine ⟨rs_model_eq σs t s eps, ?_, ?_⟩
  · rw [ps_model, sigmas_sel_eq]
    rfl
  · intro r hr
    rw [rs_model_eq] at hr
    simp only [List.mem_map, List.mem_filter, decide_eq_true_eq] at hr
    obtain ⟨σ, ⟨hmem, hpos⟩, hEq⟩ := hr
    rw [← hEq]
    exact hpos

/-- Witness for C1 at `sigmas = [1], t = 1, s = sdot = sddot = 0, eps = 1`. -/
theorem wagner_pressure_profile_spec_witness :
    ((0 : ℝ) < 1 - 0 ∧ ∀ σ ∈ ([1] : List ℝ), 0 < σ)
    ∧ (rs_model [1] 1 0 1
         = (([1] : List ℝ).filter fun σ => decide (0 < inner_r 1 1 0 σ)).map (inner_r 1 1 0)
       ∧ ps_model [1] 1 0 0 0 1
           = (([1] : List ℝ).filter fun σ => decide (0 < inner_r 1 1 0 σ)).map
               (fun σ => (((inner_p 1 1 0 0 σ : ℝ) : ℂ)
                   + outer_p 1 1 0 0 0 (inner_r 1 1 0 σ / 1)
                   - overlap 1 1 0 0 (inner_r 1 1 0 σ)).re)
       ∧ ∀ r ∈ rs_model [1] 1 0 1, 0 < r) :=
  ⟨⟨by norm_num, by intro σ hσ; rw [List.mem_singleton] at hσ; rw [hσ]; norm_num⟩,
   wagner_pressure_profile_spec [1] 1 0 0 0 1 (by norm_num)
     (by intro σ hσ; rw [List.mem_singleton] at hσ; rw [hσ]; norm_num)⟩

/-- C10: for every turnover state with `t - s > 0` and every sigma sample set
the evaluation is total - no error branch is ever taken - and every returned
pressure (the `ps` entries and `pmax`) is the real part of the complex
composite value, so no complex value escapes the interface; retention of a
sample depends only on the sign of its radius, not on any radicand sign. -/
theorem evaluation_no_error_branch (σs : List ℝ) (t s sdot sddot eps : ℝ)
    (h : 0 < t - s) (hσ : ∀ σ ∈ σs, 0 < σ) :
    (∀ e, wagner_pressure σs t s sdot sddot eps ≠ Except.error e)
    ∧ ps_model σs t s sdot sddot eps
        = (sigmas_sel σs t s eps).map (fun σ => (compositeC eps t s sdot sddot σ).re)
    ∧ pmax_model t s sdot sddot eps = (pmaxC t s sdot sddot eps).re
    ∧ sigmas_sel σs t s eps = σs.filter fun σ => decide (0 < inner_r eps t s σ) := by
  refine ⟨?_, rfl, rfl, sigmas_sel_eq σs t s eps⟩
  intro e hcon
  simp [wagner_pressure] at hcon

/-- Witness for C10 at `sigmas = [1], t = 1, s = sdot = sddot = 0, eps = 1`. -/
theorem evaluation_no_error_branch_witness :
    ((0 : ℝ) < 1 - 0 ∧ ∀ σ ∈ ([1] : List ℝ), 0 < σ)
    ∧ ((∀ e, wagner_pressure [1] 1 0 0 0 1 ≠ Except.error e)
       ∧ ps_model [1] 1 0 0 0 1
           = (sigmas_sel [1] 1 0 1).map (fun σ => (compositeC 1 1 0 0 0 σ).re)
       ∧ pmax_model 1 0 0 0 1 = (pmaxC 1 0 0 0 1).re
       ∧ sigmas_sel [1] 1 0 1 = ([1] : List ℝ).filter fun σ => decide (0 < inner_r 1 1 0 σ)) :=
  ⟨⟨by norm_num, by intro σ hσ; rw [List.mem_singleton] at hσ; rw [hσ]; norm_num⟩,
   evaluation_no_error_branch [1] 1 0 0 0 1 (by norm_num)
     (by intro σ hσ; rw [List.mem_singleton] at hσ; rw [hσ]; norm_num)⟩

/-- C5 amended: for `t - s > 0` the evaluation never fails with any error - it
always returns the three outputs - and when a radicand of the outer or overlap
branch is negative the branch's value is purely imaginary, so the real
projection of the source discards it instead of raising a DomainError. -/
theorem evaluation_total_real_part (σs : List ℝ) (t s sdot sddot eps : ℝ) (h : 0 < t - s) :
    wagner_pressure σs t s sdot sddot eps
      = Except.ok (rs_model σs t s eps, ps_model σs t s sdot sddot eps,
          pmax_model t s sdot sddot eps)
    ∧ (∀ rhat, dd t s ^ 2 - rhat ^ 2 < 0 → (outer_p eps t s sdot sddot rhat).re = 0)
    ∧ ∀ r, dd t s / eps ^ 2 - r / eps ^ 3 < 0 → (overlap eps t s sdot r).re = 0 :=
  ⟨rfl, fun _ hr => outer_p_re_of_neg hr, fun _ hr => overlap_re_of_neg hr⟩

/-- Witness for the C5 amended theorem at `t = 1, s = sdot = sddot = 0, eps = 1`. -/
theorem evaluation_total_real_part_witness :
    (0 : ℝ) < 1 - 0
    ∧ (wagner_pressure [1] 1 0 0 0 1
         = Except.ok (rs_model [1] 1 0 1, ps_model [1] 1 0 0 0 1, pmax_model 1 0 0 0 1)
       ∧ (∀ rhat, dd 1 0 ^ 2 - rhat ^ 2 < 0 → (outer_p 1 1 0 0 0 rhat).re = 0)
       ∧ ∀ r, dd 1 0 / 1 ^ 2 - r / 1 ^ 3 < 0 → (overlap 1 1 0 0 r).re = 0) :=
  ⟨by norm_num, evaluation_total_real_part [1] 1 0 0 0 1 (by norm_num)⟩

/-- C5 counterexample: at `t = 1, s = sdot = sddot = 0, eps = 1` and the sample
`sigma = 0.01` the retained radius exceeds the turnover radius, so the overlap
radicand is negative, yet the evaluation returns `Except.ok` of the three
outputs instead of failing with a DomainError. -/
theorem no_domain_error_counterexample :
    0 < inner_r 1 1 0 0.01
    ∧ dd 1 0 / 1 ^ 2 - inner_r 1 1 0 0.01 / 1 ^ 3 < 0
    ∧ wagner_pressure [0.01] 1 0 0 0 1
        = Except.ok (rs_model [0.01] 1 0 1, ps_model [0.01] 1 0 0 0 1,
            pmax_model 1 0 0 0 1) := by
  have hJ : 0 < Jfun 1 0 := by
    unfold Jfun
    rw [show (1 : ℝ) - 0 = 1 by norm_num, Real.one_rpow]
    positivity
  have hzf : zero_fun 0.01 < 0 := zero_fun_neg_small 0.01 (by norm_num) (by norm_num)
  have htil : 0 < tilde_r 1 0 0.01 := by
    rw [tilde_r_eq_zero_fun]
    have hfrac : 0 < Jfun 1 0 / Real.pi := div_pos hJ Real.pi_pos
    exact mul_pos_of_neg_of_neg (by linarith) hzf
  have hdd : 0 ≤ dd 1 0 := Real.sqrt_nonneg _
  refine ⟨?_, ?_, rfl⟩
  · unfold inner_r
    nlinarith
  · unfold inner_r
    nlinarith

/-- C4 amended: when `eps = 1` (the value used by the repository's
force-comparison workflow) the dedicated peak-pressure computation agrees with
the composite pressure formula used for the profile, evaluated at
`r = inner_r(sigma_max)`; for general `eps` the peak computation passes `r/eps`
instead of `r` to the overlap solution, so the two need not agree. -/
theorem pmax_composite_eps_one (t s sdot sddot : ℝ) :
    pmax_model t s sdot sddot 1 = compositeP 1 t s sdot sddot sigma_max := by
  simp only [pmax_model, pmaxC, compositeP, compositeC, div_one]

/-- C4 counterexample: at `t = 1, s = sdot = sddot = 0` and `eps = 2` the
returned peak pressure differs from the composite pressure formula of the
profile evaluated at `r = inner_r(sigma_max)`: the source evaluates the overlap
term at `r/eps` for the peak but at `r` for the profile. -/
theorem pmax_composite_counterexample :
    pmax_model 1 0 0 0 2 ≠ compositeP 2 1 0 0 0 sigma_max := by
  have hzf : zero_fun sigma_max = 0 := sigma_max_spec.2
  have hir : inner_r 2 1 0 sigma_max = 2 * dd 1 0 := by
    unfold inner_r
    rw [tilde_r_eq_zero_fun, hzf]
    ring
  have hd3 : dd 1 0 = Real.sqrt 3 := by
    unfold dd
    norm_num
  have hdpos : 0 < dd 1 0 := by
    rw [hd3]
    exact Real.sqrt_pos.mpr (by norm_num)
  have hddotpos : 0 < ddot 1 0 0 := by
    unfold ddot
    simp only [show (1 : ℝ) - 0 = 1 by norm_num, Real.sqrt_one]
    positivity
  have hov2 : overlap 2 1 0 0 (2 * dd 1 0) = 0 := by
    unfold overlap
    rw [show dd 1 0 / (2 : ℝ) ^ 2 - 2 * dd 1 0 / (2 : ℝ) ^ 3 = 0 by ring]
    rw [msqrt_of_nonneg le_rfl]
    simp [Real.sqrt_zero]
  have hovpos : 0 < (overlap 2 1 0 0 (dd 1 0)).re := by
    unfold overlap
    rw [show dd 1 0 / (2 : ℝ) ^ 2 - dd 1 0 / (2 : ℝ) ^ 3 = dd 1 0 / 8 by ring]
    rw [msqrt_of_nonneg (div_nonneg hdpos.le (by norm_num))]
    rw [show (((3 * Real.pi * (2 : ℝ) ^ 2 : ℝ)) : ℂ) * ((Real.sqrt (dd 1 0 / 8) : ℝ) : ℂ)
          = ((3 * Real.pi * (2 : ℝ) ^ 2 * Real.sqrt (dd 1 0 / 8) : ℝ) : ℂ) by push_cast; ring]
    rw [← Complex.ofReal_div, Complex.ofReal_re]
    apply div_pos
    · have h2 : 0 < Real.sqrt 2 := Real.sqrt_pos.mpr (by norm_num)
      have h32 : 0 < dd 1 0 ^ ((3 : ℝ) / 2) := Real.rpow_pos_of_pos hdpos _
      exact mul_pos (mul_pos (mul_pos (by norm_num) h2) h32) (pow_pos hddotpos 2)
    · have hs8 : 0 < Real.sqrt (dd 1 0 / 8) := Real.sqrt_pos.mpr (by linarith)
      have hπ := Real.pi_pos
      exact mul_pos (mul_pos (mul_pos (by norm_num) hπ) (by norm_num)) hs8
  unfold pmax_model compositeP pmaxC compositeC
  rw [hir]
  rw [show (2 : ℝ) * dd 1 0 / 2 = dd 1 0 by ring]
  simp only [Complex.add_re, Complex.sub_re, Complex.ofReal_re]
  rw [hov2]
  simp only [Complex.zero_re]
  intro hEq
  linarith

end Wagner
